import Mathlib

/-! Shallow embedding, in Lean 4, of the parts of the Sentinair repository that
the specification talks about:

* `src/core/engine.py` — feature extraction (`SentinairEngine._extract_features`)
* `src/ml/anomaly_detector.py` — the `AnomalyDetector` class
  (`train`, `predict`, `_convert_anomaly_score`, `load_model`, `is_trained`)
* `src/alerts/alert_manager.py` — the `AlertManager` class
  (`create_alert`, `_should_create_alert`, `_check_rate_limit`,
  `acknowledge_alert`, `mark_false_positive`, `get_recent_alerts`,
  `cleanup_old_alerts`)

Conventions used throughout the embedding:

* Python `datetime` values are modelled as integers (microseconds since the
  epoch); `timedelta(hours=1)` is the constant `hourUs`.
* Python `float` inputs to the ML layer are modelled by `PyFloat`
  (a rational number, or one of the non-finite sentinels NaN / +inf / -inf),
  so that `np.nan_to_num` can be embedded faithfully.
* In the alert manager, timestamps stored in alert dictionaries are either
  ISO-8601 strings or `datetime` objects.  ISO-8601 strings of a fixed clock
  compare lexicographically in time order, so a stored value is modelled by
  `PyTime`: `PyTime.str t` is the ISO string rendering of time `t`, and
  `PyTime.dt t` a genuine `datetime`.  Comparing a string with a `datetime`
  raises `TypeError` in Python 3; the embedded comparison `pyTimeGeDt`
  returns `Except` accordingly.
* Calls into scikit-learn (`StandardScaler.fit`, `IsolationForest.fit`,
  `predict`, `decision_function`) are third-party library calls, not code of
  this repository; they are abstracted as function parameters of the
  embedded operations.  Everything the repository itself computes
  (`np.nan_to_num`, `np.clip`, the control flow and state updates) is
  embedded concretely.
-/

namespace Sentinair

/-! Python float values and numpy helpers -/

/-- A Python float as seen by the ML layer: finite (a rational), or one of
the non-finite values NaN, +inf, -inf. -/
inductive PyFloat where
  | fin (q : ℚ)
  | nan
  | inf
  | ninf
  deriving DecidableEq, Repr

/-- Embeds `np.nan_to_num(x, nan=0.0, posinf=1e10, neginf=-1e10)` on one entry
(`anomaly_detector.py` lines 56 and 105). -/
def nanToNum : PyFloat → ℚ
  | .fin q => q
  | .nan => 0
  | .inf => (10 : ℚ) ^ 10
  | .ninf => -((10 : ℚ) ^ 10)

/-- Embeds `np.clip(x, lo, hi)` on scalars. -/
def npClip (x lo hi : ℚ) : ℚ := min (max x lo) hi

/-! Feature extraction (`src/core/engine.py`, `_extract_features`) -/

namespace Engine

/-- The fields of `event.timestamp` that `_extract_features` reads
(`timestamp.hour` and `timestamp.weekday()`). -/
structure PyDatetime where
  hour : ℕ
  weekday : ℕ
  deriving DecidableEq, Repr

/-- The payload dictionary `event.data`; every field the extractor reads
via `.get` is optional, mirroring a possibly missing dictionary key. -/
structure EventData where
  file_path : Option String := none
  event_type : Option String := none
  device_name : Option String := none
  vendor_id : Option String := none
  app_name : Option String := none
  app_path : Option String := none
  duration_seconds : Option ℚ := none
  keystroke_patterns : Option (List String) := none
  mouse_patterns : Option (List String) := none
  deriving Repr

/-- The fields of a `DetectionEvent` that `_extract_features` reads. -/
structure DetectionEvent where
  timestamp : PyDatetime
  event_type : String
  data : EventData
  deriving Repr

/-- Number of occurrences of character `c` in string `s`
(Python `str.count` for a single-character needle). -/
def countChar (s : String) (c : Char) : ℕ :=
  (s.toList.filter (fun x => x = c)).length

/-- Substring membership, Python `needle in haystack`. -/
def containsSub (haystack needle : String) : Bool :=
  (haystack.splitOn needle).length > 1

/-- The one-hot-encoded event types (`engine.py` line 199). -/
def eventTypes : List String :=
  ["file_access", "usb_event", "process_launch", "user_behavior"]

/-- The event-type-specific feature block (`engine.py` lines 203-235). -/
def specificFeatures (e : DetectionEvent) : List ℚ :=
  if e.event_type = "file_access" then
    let file_path := e.data.file_path.getD ""
    [(file_path.length : ℚ),
     ((countChar file_path '/' + countChar file_path '\\' : ℕ) : ℚ),
     if file_path.endsWith ".exe" then 1 else 0,
     if containsSub file_path.toLower "system" then 1 else 0]
  else if e.event_type = "usb_event" then
    [if e.data.event_type = some "insert" then 1 else 0,
     ((e.data.device_name.getD "").length : ℚ),
     if e.data.vendor_id = some "unknown" then 1 else 0]
  else if e.event_type = "process_launch" then
    let app_name := e.data.app_name.getD ""
    [(app_name.length : ℚ),
     if app_name.endsWith ".exe" then 1 else 0,
     if containsSub (e.data.app_path.getD "").toLower "temp" then 1 else 0]
  else if e.event_type = "user_behavior" then
    [(e.data.duration_seconds.getD 0) / 3600,
     ((e.data.keystroke_patterns.getD []).length : ℚ),
     ((e.data.mouse_patterns.getD []).length : ℚ)]
  else []

/-- The pad-or-truncate step at the end of `_extract_features`
(`engine.py` lines 237-242). -/
def padOrTruncate (features : List ℚ) (target_size : ℕ) : List ℚ :=
  if features.length < target_size then
    features ++ List.replicate (target_size - features.length) 0
  else if features.length > target_size then
    features.take target_size
  else features

/-- Embeds `SentinairEngine._extract_features` (`engine.py` lines 190-244):
time features, one-hot event type, event-specific block, then
pad-or-truncate to the fixed size 20. -/
def extractFeatures (e : DetectionEvent) : List ℚ :=
  let features : List ℚ :=
    [(e.timestamp.hour : ℚ), (e.timestamp.weekday : ℚ)]
      ++ eventTypes.map (fun etype => if e.event_type = etype then 1 else 0)
      ++ specificFeatures e
  padOrTruncate features 20

end Engine

end Sentinair

namespace Sentinair

/-! The anomaly detector (`src/ml/anomaly_detector.py`) -/

namespace ML

/-- The mutable state of an `AnomalyDetector`: `model_type` (fixed at
construction from the config), the fitted model and scaler (or `None`), and
the `is_trained_flag`.  The types of fitted scikit-learn objects are
abstract parameters. -/
structure Detector (Model Scaler : Type) where
  model_type : String
  model : Option Model := none
  scaler : Option Scaler := none
  is_trained_flag : Bool := false
  deriving Repr

/-- Embeds `AnomalyDetector.is_trained` (lines 223-225): the flag is set and both
model and scaler are present. -/
def isTrained {Model Scaler : Type} (d : Detector Model Scaler) : Bool :=
  d.is_trained_flag && d.model.isSome && d.scaler.isSome

/-- Embeds `np.array(features)` succeeds as a 2-d float array only when the rows
all have the same length; on ragged input the conversion (or the
`np.nan_to_num` that follows it) raises, which `train` catches. -/
def rectangular (features : List (List PyFloat)) : Bool :=
  match features with
  | [] => true
  | row :: rest => rest.all (fun r => r.length = row.length)

/-- Embeds `AnomalyDetector.train` (lines 43-92).  The scikit-learn fitting
routines are passed in as `fitScaler`, `transform` (the fitted scaler's
`transform`), and `fitModel`.  Faithful points of the control flow:

* fewer than 10 samples: warn and return `False`, state untouched;
* `np.array` / `np.nan_to_num` raise on ragged input before any state is
  assigned: caught, return `False`, state untouched;
* `self.scaler` is assigned the freshly fitted scaler (line 59) *before*
  the `model_type` dispatch (line 63); an unsupported `model_type` raises
  `ValueError` (line 71), which is caught and returns `False` — but the
  scaler assignment has already happened;
* on success the model is fitted on the scaled data and
  `is_trained_flag` is set (lines 74-75). -/
def train {Model Scaler : Type}
    (fitScaler : List (List ℚ) → Scaler)
    (transform : Scaler → List ℚ → List ℚ)
    (fitModel : List (List ℚ) → Model)
    (d : Detector Model Scaler) (features : List (List PyFloat)) :
    Bool × Detector Model Scaler :=
  if features.length < 10 then (false, d)
  else if ¬ rectangular features then (false, d)
  else
    let X : List (List ℚ) := features.map (fun row => row.map nanToNum)
    let scaler := fitScaler X
    let X_scaled := X.map (transform scaler)
    if d.model_type = "isolation_forest" then
      let model := fitModel X_scaled
      (true, { d with scaler := some scaler, model := some model,
                      is_trained_flag := true })
    else
      (false, { d with scaler := some scaler })

/-- Embeds `AnomalyDetector._convert_anomaly_score` (lines 126-133):
`np.clip(-score, -1, 1)` then rescale to `[0, 1]`. -/
def convertAnomalyScore (score : ℚ) : ℚ :=
  let normalized_score := npClip (-score) (-1) 1
  (normalized_score + 1) / 2

/-- Embeds `AnomalyDetector.predict` (lines 94-124).  The fitted model's `predict`
(`predictRaw`, returning `1` or `-1`) and `decision_function`
(`decisionFn`) and the scaler's `transform` are abstract parameters.
Not-trained input fails closed with `(False, 0.0)`; otherwise the input is
nan-sanitised, scaled, and the raw score is converted. -/
def predict {Model Scaler : Type}
    (transform : Scaler → List ℚ → List ℚ)
    (predictRaw : Model → List ℚ → ℤ)
    (decisionFn : Model → List ℚ → ℚ)
    (d : Detector Model Scaler) (features : List PyFloat) : Bool × ℚ :=
  if ¬ isTrained d then (false, 0)
  else
    match d.model, d.scaler with
    | some m, some s =>
      let X := features.map nanToNum
      let X_scaled := transform s X
      let prediction := predictRaw m X_scaled
      let anomaly_score := decisionFn m X_scaled
      (prediction = -1, convertAnomalyScore anomaly_score)
    | _, _ => (false, 0)

/-- Embeds `AnomalyDetector.load_model` (lines 194-221), with the disk read
abstracted: `found` is whether the `latest_model` / `latest_scaler` files
exist, and `m`, `s` are the deserialised objects.  A successful load
installs both and sets the flag. -/
def loadModel {Model Scaler : Type} (found : Bool) (m : Model) (s : Scaler)
    (d : Detector Model Scaler) : Bool × Detector Model Scaler :=
  if found then
    (true, { d with model := some m, scaler := some s, is_trained_flag := true })
  else (false, d)

end ML

end Sentinair

namespace Sentinair

/-! The alert manager (`src/alerts/alert_manager.py`) -/

namespace Alerts

/-- One hour, in microseconds (`timedelta(hours=1)`). -/
def hourUs : ℤ := 3600 * 1000000

/-- One day, in microseconds (`timedelta(days=1)`). -/
def dayUs : ℤ := 24 * hourUs

/-- A timestamp value stored in an alert dictionary: either an ISO-8601
string (`PyTime.str t` renders time `t`; such strings of one clock compare
lexicographically in time order) or a genuine `datetime` (`PyTime.dt t`). -/
inductive PyTime where
  | str (t : ℤ)
  | dt (t : ℤ)
  deriving DecidableEq, Repr

/-- Python-3 comparison `v >= cutoff` where `cutoff` is a `datetime`:
comparing a string with a `datetime` raises `TypeError`. -/
def pyTimeGeDt (v : PyTime) (cutoff : ℤ) : Except String Bool :=
  match v with
  | .str _ => .error "TypeError"
  | .dt t => .ok (decide (cutoff ≤ t))

/-- An alert dictionary as built by `create_alert` (lines 65-76), with the
fields later mutated by `acknowledge_alert` / `mark_false_positive`.
`event_data` is kept as an opaque string payload. -/
structure Alert where
  id : ℤ
  timestamp : PyTime
  event_type : String
  severity : String
  confidence : ℚ
  description : String
  event_data : String := ""
  acknowledged : Bool := false
  false_positive : Bool := false
  created_at : PyTime
  acknowledged_at : Option PyTime := none
  acknowledged_by : Option String := none
  deriving DecidableEq, Repr

/-- The caller-supplied `alert_data` dictionary; each field read with
`.get` is optional. -/
structure AlertData where
  timestamp : Option PyTime := none
  event_type : Option String := none
  severity : Option String := none
  confidence : Option ℚ := none
  description : Option String := none
  event_data : Option String := none
  deriving Repr

/-- The mutable state of an `AlertManager` (constructor, lines 26-51).
`alert_timestamps` is the per-event-type rate-limiting deque of `datetime`
values (a `defaultdict`, so absent keys read as the empty deque);
`alert_history` is a `deque(maxlen=1000)`. -/
structure AlertManager where
  severity_threshold : String
  max_alerts_per_hour : ℕ
  active_alerts : List Alert := []
  alert_history : List Alert := []
  alert_timestamps : String → List ℤ := fun _ => []
  total_alerts : ℕ := 0
  alerts_by_severity : String → ℕ := fun _ => 0
  alerts_by_type : String → ℕ := fun _ => 0
  false_positives : ℕ := 0

/-- The severity scale of `_should_create_alert` (lines 113-118), with the
`dict.get` default `dflt` for unknown names. -/
def severityLevels (s : String) (dflt : ℕ) : ℕ :=
  if s = "low" then 1
  else if s = "medium" then 2
  else if s = "high" then 3
  else if s = "critical" then 4
  else dflt

/-- Embeds `AlertManager._should_create_alert` (lines 111-123): alert level
(default 1) at least the threshold level (default 2). -/
def shouldCreateAlert (m : AlertManager) (a : Alert) : Bool :=
  severityLevels a.severity 1 ≥ severityLevels m.severity_threshold 2

/-- Embeds `AlertManager._check_rate_limit` (lines 125-142) on the deque of one
event type.  Old timestamps (strictly older than one hour) are popped from
the left even when the call is then rejected; under the limit, `now` is
appended and the call is accepted. -/
def checkRateLimit (timestamps : List ℤ) (maxPerHour : ℕ) (now : ℤ) :
    Bool × List ℤ :=
  let hour_ago := now - hourUs
  let kept := timestamps.dropWhile (fun t => t < hour_ago)
  if kept.length ≥ maxPerHour then (false, kept)
  else (true, kept ++ [now])

/-- Embeds `deque(maxlen=1000).append`: a full deque drops its oldest element. -/
def historyAppend (history : List Alert) (a : Alert) : List Alert :=
  if history.length < 1000 then history ++ [a] else history.tail ++ [a]

/-- Embeds `AlertManager._update_statistics` (lines 144-148). -/
def updateStatistics (m : AlertManager) (a : Alert) : AlertManager :=
  { m with
    total_alerts := m.total_alerts + 1,
    alerts_by_severity := fun s =>
      if s = a.severity then m.alerts_by_severity s + 1 else m.alerts_by_severity s,
    alerts_by_type := fun s =>
      if s = a.event_type then m.alerts_by_type s + 1 else m.alerts_by_type s }

/-- The alert dictionary built at lines 57-76: the id is the microsecond
clock reading `int(time.time() * 1000000)`; a `datetime` timestamp (and
the `datetime.now()` default) is converted to its ISO string; `created_at`
is the ISO string of now. -/
def buildAlert (data : AlertData) (now : ℤ) : Alert :=
  let ts : PyTime :=
    match data.timestamp.getD (.dt now) with
    | .dt t => .str t
    | .str t => .str t
  { id := now,
    timestamp := ts,
    event_type := data.event_type.getD "unknown",
    severity := data.severity.getD "medium",
    confidence := data.confidence.getD 0,
    description := data.description.getD "Anomaly detected",
    event_data := data.event_data.getD "",
    created_at := .str now }

/-- Embeds `AlertManager.create_alert` (lines 53-109): build the alert; reject
(returning `-1`, state untouched) when the severity is below threshold;
run the rate-limit check (whose evictions persist even on rejection);
otherwise append to the active list and the bounded history and update the
statistics, returning the new id.  `now` is the clock reading, in
microseconds. -/
def createAlert (m : AlertManager) (data : AlertData) (now : ℤ) :
    ℤ × AlertManager :=
  let alert := buildAlert data now
  if ¬ shouldCreateAlert m alert then (-1, m)
  else
    let result := checkRateLimit (m.alert_timestamps alert.event_type)
      m.max_alerts_per_hour now
    let m1 := { m with alert_timestamps := fun ty =>
      if ty = alert.event_type then result.2 else m.alert_timestamps ty }
    if ¬ result.1 then (-1, m1)
    else
      let m2 := { m1 with
        active_alerts := m1.active_alerts ++ [alert],
        alert_history := historyAppend m1.alert_history alert }
      (alert.id, updateStatistics m2 alert)

/-- The in-place mutation of the first alert with the given id in
`acknowledge_alert`'s loop over `self.active_alerts` (lines 209-216);
returns the updated list and whether a match was found. -/
def ackFirst (alerts : List Alert) (alert_id : ℤ) (by_ : String) (now : ℤ) :
    List Alert × Bool :=
  match alerts with
  | [] => ([], false)
  | a :: rest =>
    if a.id = alert_id then
      ({ a with acknowledged := true, acknowledged_at := some (.str now),
                acknowledged_by := some by_ } :: rest, true)
    else
      let r := ackFirst rest alert_id by_ now
      (a :: r.1, r.2)

/-- Embeds `AlertManager.acknowledge_alert` (lines 205-223): only the active
list is searched; an id not found there returns `False` with no
mutation. -/
def acknowledgeAlert (m : AlertManager) (alert_id : ℤ) (by_ : String)
    (now : ℤ) : Bool × AlertManager :=
  let r := ackFirst m.active_alerts alert_id by_ now
  (r.2, { m with active_alerts := r.1 })

/-- The in-place mutation of `mark_false_positive`'s loop (lines
229-240): also sets `false_positive`. -/
def fpFirst (alerts : List Alert) (alert_id : ℤ) (by_ : String) (now : ℤ) :
    List Alert × Bool :=
  match alerts with
  | [] => ([], false)
  | a :: rest =>
    if a.id = alert_id then
      ({ a with false_positive := true, acknowledged := true,
                acknowledged_at := some (.str now),
                acknowledged_by := some by_ } :: rest, true)
    else
      let r := fpFirst rest alert_id by_ now
      (a :: r.1, r.2)

/-- Embeds `AlertManager.mark_false_positive` (lines 225-247): like
`acknowledge_alert` (again only the active list is searched), and on a
match the `false_positives` statistic is incremented. -/
def markFalsePositive (m : AlertManager) (alert_id : ℤ) (by_ : String)
    (now : ℤ) : Bool × AlertManager :=
  let r := fpFirst m.active_alerts alert_id by_ now
  if r.2 then
    (true, { m with active_alerts := r.1,
                    false_positives := m.false_positives + 1 })
  else (false, { m with active_alerts := r.1 })

/-- The list comprehension of `get_recent_alerts` (lines 273-276):
`alert['timestamp'] >= cutoff_time` compares the stored timestamp with a
`datetime`; a `TypeError` aborts the whole comprehension. -/
def filterRecent (history : List Alert) (cutoff : ℤ) :
    Except String (List Alert) :=
  match history with
  | [] => .ok []
  | a :: rest => do
    let keep ← pyTimeGeDt a.timestamp cutoff
    let tail ← filterRecent rest cutoff
    return if keep then a :: tail else tail

/-- Sort key time of an alert whose stored timestamp survived the
`datetime` comparison (hence is a `dt`). -/
def timeKey : PyTime → ℤ
  | .str t => t
  | .dt t => t

/-- Embeds `AlertManager.get_recent_alerts` (lines 267-285): filter the history
by the cutoff `now - hours`, sort newest-first; any exception is caught
and the empty list returned. -/
def getRecentAlerts (m : AlertManager) (hours : ℕ) (now : ℤ) : List Alert :=
  let cutoff_time := now - hours * hourUs
  match filterRecent m.alert_history cutoff_time with
  | .error _ => []
  | .ok recent =>
    recent.mergeSort (fun a b => timeKey b.timestamp ≤ timeKey a.timestamp)

/-- One alert's keep-condition in the list comprehension of
`cleanup_old_alerts` (lines 316-320): keep when unacknowledged, otherwise
compare `alert.get('acknowledged_at', alert['timestamp'])` with the
`datetime` cutoff — raising `TypeError` when that value is a string. -/
def cleanupKeep (a : Alert) (cutoff : ℤ) : Except String Bool :=
  if ¬ a.acknowledged then .ok true
  else pyTimeGeDt (a.acknowledged_at.getD a.timestamp) cutoff

/-- The whole comprehension: an exception at any element aborts it. -/
def cleanupFilter (alerts : List Alert) (cutoff : ℤ) :
    Except String (List Alert) :=
  match alerts with
  | [] => .ok []
  | a :: rest => do
    let keep ← cleanupKeep a cutoff
    let tail ← cleanupFilter rest cutoff
    return if keep then a :: tail else tail

/-- Embeds `AlertManager.cleanup_old_alerts` (lines 307-331): rebuild the active
list keeping unacknowledged or recent alerts, returning how many were
dropped; an exception is caught and `0` returned with the state
untouched. -/
def cleanupOldAlerts (m : AlertManager) (days : ℕ) (now : ℤ) :
    ℕ × AlertManager :=
  let cutoff_time := now - days * dayUs
  match cleanupFilter m.active_alerts cutoff_time with
  | .error _ => (0, m)
  | .ok kept =>
    (m.active_alerts.length - kept.length, { m with active_alerts := kept })

end Alerts

end Sentinair

namespace Sentinair

namespace Alerts

/-! Sequences of `create_alert` calls

Helpers used to state properties of whole call sequences: the ids returned
by the successful calls, the accepted call times for a fixed payload, and
the evolution of one event type's rate-limiting deque. -/

/-- The ids returned by the successful `create_alert` calls of a call
sequence (a call succeeds when it does not return `-1`). -/
def successIds (m : AlertManager) : List (AlertData × ℤ) → List ℤ
  | [] => []
  | c :: rest =>
    if (createAlert m c.1 c.2).1 ≠ -1 then
      (createAlert m c.1 c.2).1 :: successIds (createAlert m c.1 c.2).2 rest
    else successIds (createAlert m c.1 c.2).2 rest

/-- The call times at which `create_alert`, called repeatedly with the
same payload `data` at the given clock readings, succeeds. -/
def acceptedTimes (m : AlertManager) (data : AlertData) : List ℤ → List ℤ
  | [] => []
  | t :: ts =>
    if (createAlert m data t).1 ≠ -1 then
      t :: acceptedTimes (createAlert m data t).2 data ts
    else acceptedTimes (createAlert m data t).2 data ts

/-- The accepted call times of a sequence of `_check_rate_limit` calls on
one event type's deque. -/
def rlAccepted (maxPerHour : ℕ) (dq : List ℤ) : List ℤ → List ℤ
  | [] => []
  | t :: ts =>
    if (checkRateLimit dq maxPerHour t).1 then
      t :: rlAccepted maxPerHour (checkRateLimit dq maxPerHour t).2 ts
    else rlAccepted maxPerHour (checkRateLimit dq maxPerHour t).2 ts

/-- The deque left behind by a sequence of `_check_rate_limit` calls. -/
def rlState (maxPerHour : ℕ) (dq : List ℤ) : List ℤ → List ℤ
  | [] => dq
  | t :: ts => rlState maxPerHour (checkRateLimit dq maxPerHour t).2 ts

/-- The timestamps of `l` at or after `c`. -/
def filterGe (c : ℤ) (l : List ℤ) : List ℤ :=
  l.filter (fun a => decide (c ≤ a))

/-- How many timestamps of `l` fall in the closed one-hour window
`[w, w + hourUs]`. -/
def windowCount (w : ℤ) (l : List ℤ) : ℕ :=
  (l.filter (fun a => decide (w ≤ a) && decide (a ≤ w + hourUs))).length

/-- The eviction cutoff in force after a sequence of calls: one hour
before the last call time (`c` when there was no call). -/
def lastCut (c : ℤ) (ts : List ℤ) : ℤ :=
  ts.foldl (fun _ t => t - hourUs) c

/-! Concrete fixtures for witnesses and counterexamples -/

/-- A fresh manager: threshold `medium`, at most 2 alerts per hour. -/
def mFresh : AlertManager :=
  { severity_threshold := "medium", max_alerts_per_hour := 2 }

/-- A fresh manager with the default limit of 10 alerts per hour. -/
def mFresh10 : AlertManager :=
  { severity_threshold := "medium", max_alerts_per_hour := 10 }

/-- A candidate alert of severity `high` (above the `medium` threshold). -/
def dataHigh : AlertData := { severity := some "high" }

/-- An alert dictionary as it sits in the bounded history. -/
def histAlert : Alert :=
  { id := 5, timestamp := .str 0, event_type := "unknown",
    severity := "high", confidence := 1, description := "d",
    created_at := .str 0 }

/-- A manager whose bounded history holds an alert (id 5) that is not in
the active list. -/
def mHistOnly : AlertManager :=
  { severity_threshold := "medium", max_alerts_per_hour := 10,
    active_alerts := [], alert_history := [histAlert] }

end Alerts

end Sentinair

namespace Sentinair

namespace ML

/-! Concrete fixtures for ML witnesses and counterexamples.

`Model` and `Scaler` are instantiated with `ℕ` so that distinct fitted
objects are distinguishable: the fit functions below return fixed tags. -/

/-- A fresh detector configured (as by default) with `isolation_forest`. -/
def dForest : Detector ℕ ℕ := { model_type := "isolation_forest" }

/-- A fresh detector whose config names an unsupported model type. -/
def dSvm : Detector ℕ ℕ := { model_type := "svm" }

/-- A stand-in for `StandardScaler` fitting: tag 1. -/
def fitScalerTag (_ : List (List ℚ)) : ℕ := 1

/-- A stand-in for the fitted scaler's `transform`: the identity map. -/
def transformId (_ : ℕ) (x : List ℚ) : List ℚ := x

/-- A stand-in for `IsolationForest` fitting: tag 9. -/
def fitModelTag (_ : List (List ℚ)) : ℕ := 9

/-- A stand-in for the fitted model's `predict`: always `-1` (anomaly). -/
def predictNeg (_ : ℕ) (_ : List ℚ) : ℤ := -1

/-- A stand-in for `decision_function`: always the raw score `-5`. -/
def decisionConst (_ : ℕ) (_ : List ℚ) : ℚ := -5

/-- Ten one-entry training rows. -/
def tenRows : List (List PyFloat) := List.replicate 10 [PyFloat.fin 0]

end ML

end Sentinair

namespace Sentinair

/-! Claims about feature extraction -/

theorem padOrTruncate_length (l : List ℚ) (n : ℕ) :
    (Engine.padOrTruncate l n).length = n := by
  unfold Engine.padOrTruncate
  split
  · simp only [List.length_append, List.length_replicate]
    omega
  · split
    · simp only [List.length_take]
      omega
    · omega

/-- C1: for every event, regardless of its event type and regardless of
which payload fields are present or missing, `_extract_features` returns a
vector of exactly 20 entries (shorter raw feature lists are padded with
zeros, longer ones truncated). -/
theorem extract_features_length_eq_twenty (e : Engine.DetectionEvent) :
    (Engine.extractFeatures e).length = 20 := by
  unfold Engine.extractFeatures
  exact padOrTruncate_length _ _

/-! Claims about the anomaly detector -/

/-- C5: `train` with fewer than 10 feature vectors returns failure and
leaves the detector's prior state — model, scaler and trained flag —
completely unchanged, whatever that state was. -/
theorem train_too_few_samples_noop {Model Scaler : Type}
    (fitScaler : List (List ℚ) → Scaler)
    (transform : Scaler → List ℚ → List ℚ)
    (fitModel : List (List ℚ) → Model)
    (d : ML.Detector Model Scaler) (features : List (List PyFloat))
    (h : features.length < 10) :
    ML.train fitScaler transform fitModel d features = (false, d) := by
  unfold ML.train
  simp [h]

theorem train_too_few_samples_noop_witness :
    ([[PyFloat.fin 1]] : List (List PyFloat)).length < 10 ∧
    ML.train ML.fitScalerTag ML.transformId ML.fitModelTag ML.dForest
      [[PyFloat.fin 1]] = (false, ML.dForest) :=
  ⟨by decide,
   train_too_few_samples_noop ML.fitScalerTag ML.transformId ML.fitModelTag
     ML.dForest [[PyFloat.fin 1]] (by decide)⟩

end Sentinair

namespace Sentinair

theorem convertAnomalyScore_mem_unit (score : ℚ) :
    0 ≤ ML.convertAnomalyScore score ∧ ML.convertAnomalyScore score ≤ 1 := by
  unfold ML.convertAnomalyScore npClip
  constructor
  · have h1 : (-1 : ℚ) ≤ min (max (-score) (-1)) 1 :=
      le_min (le_max_right _ _) (by norm_num)
    linarith
  · have h2 : min (max (-score) (-1)) 1 ≤ 1 := min_le_right _ _
    linarith

/-- C4: after a successful `train` the detector reports trained; when
trained, `predict` returns a confidence in `[0, 1]` for every input vector
(NaN and infinite entries included), computed by clipping the negated raw
decision score to `[-1, 1]` and rescaling to `[0, 1]`; when not trained,
`predict` fails closed with `(False, 0.0)`. -/
theorem predict_confidence_in_unit_interval {Model Scaler : Type}
    (fitScaler : List (List ℚ) → Scaler)
    (transform : Scaler → List ℚ → List ℚ)
    (fitModel : List (List ℚ) → Model)
    (predictRaw : Model → List ℚ → ℤ)
    (decisionFn : Model → List ℚ → ℚ)
    (d : ML.Detector Model Scaler)
    (tfeats : List (List PyFloat)) (feats : List PyFloat) :
    ((ML.train fitScaler transform fitModel d tfeats).1 = true →
      ML.isTrained (ML.train fitScaler transform fitModel d tfeats).2 = true) ∧
    (ML.isTrained d = true →
      0 ≤ (ML.predict transform predictRaw decisionFn d feats).2 ∧
      (ML.predict transform predictRaw decisionFn d feats).2 ≤ 1 ∧
      ∃ mo sc, d.model = some mo ∧ d.scaler = some sc ∧
        (ML.predict transform predictRaw decisionFn d feats).2 =
          ML.convertAnomalyScore
            (decisionFn mo (transform sc (feats.map nanToNum)))) ∧
    (ML.isTrained d = false →
      ML.predict transform predictRaw decisionFn d feats = (false, 0)) := by
  refine ⟨?_, ?_, ?_⟩
  · intro h
    unfold ML.train at h ⊢
    split at h
    · simp at h
    · split at h
      · simp at h
      · split at h
        · rename_i h1 h2 h3
          simp [ML.isTrained, h1, h2, h3]
        · simp at h
  · intro h
    unfold ML.predict
    rw [h]
    simp only [Bool.not_true, ite_false, Bool.false_eq_true, if_neg,
      not_false_eq_true]
    unfold ML.isTrained at h
    simp only [Bool.and_eq_true, Option.isSome_iff_exists] at h
    obtain ⟨⟨-, mo, hmo⟩, sc, hsc⟩ := h
    rw [hmo, hsc]
    refine ⟨(convertAnomalyScore_mem_unit _).1, (convertAnomalyScore_mem_unit _).2,
      mo, sc, rfl, rfl, rfl⟩
  · intro h
    unfold ML.predict
    rw [h]
    simp

theorem predict_confidence_in_unit_interval_witness :
    ML.isTrained (⟨"isolation_forest", some 9, some 1, true⟩ : ML.Detector ℕ ℕ)
        = true ∧
    0 ≤ (ML.predict ML.transformId ML.predictNeg ML.decisionConst
          (⟨"isolation_forest", some 9, some 1, true⟩ : ML.Detector ℕ ℕ)
          [PyFloat.nan, PyFloat.inf]).2 ∧
    (ML.predict ML.transformId ML.predictNeg ML.decisionConst
          (⟨"isolation_forest", some 9, some 1, true⟩ : ML.Detector ℕ ℕ)
          [PyFloat.nan, PyFloat.inf]).2 ≤ 1 := by
  have h := predict_confidence_in_unit_interval ML.fitScalerTag ML.transformId
    ML.fitModelTag ML.predictNeg ML.decisionConst
    (⟨"isolation_forest", some 9, some 1, true⟩ : ML.Detector ℕ ℕ)
    ML.tenRows [PyFloat.nan, PyFloat.inf]
  exact ⟨rfl, (h.2.1 rfl).1, (h.2.1 rfl).2.1⟩

end Sentinair

namespace Sentinair

/-- C3, counterexample: a failed `train` can leave a partially updated
state.  A detector configured with `model_type = "svm"` that became trained
through `load_model` keeps `is_trained() == true` after a failed `train`
call, but its scaler has been replaced by the scaler fitted during the
failed run (the assignment at line 59 precedes the `ValueError` raised at
line 71), so model and scaler no longer come from the same training run. -/
theorem train_failure_leaves_partial_state :
    (ML.train ML.fitScalerTag ML.transformId ML.fitModelTag
        (ML.loadModel true 7 0 ML.dSvm).2 ML.tenRows).1 = false ∧
    ML.isTrained (ML.train ML.fitScalerTag ML.transformId ML.fitModelTag
        (ML.loadModel true 7 0 ML.dSvm).2 ML.tenRows).2 = true ∧
    (ML.loadModel true 7 0 ML.dSvm).2.scaler = some 0 ∧
    (ML.train ML.fitScalerTag ML.transformId ML.fitModelTag
        (ML.loadModel true 7 0 ML.dSvm).2 ML.tenRows).2.scaler = some 1 ∧
    (ML.train ML.fitScalerTag ML.transformId ML.fitModelTag
        (ML.loadModel true 7 0 ML.dSvm).2 ML.tenRows).2.model = some 7 := by
  decide

/-- C3, amended: the trained flag flips only on a successful `train`,
and a failed `train` never changes the model, the flag or the model type;
when `model_type` is `"isolation_forest"` a failed `train` leaves the
state completely unchanged; a successful `train` installs exactly the
scaler and the model fitted in that run.  (What fails in the original
claim: a `train` that fails at the model-type dispatch has already
replaced the scaler, so a detector trained via `load_model` under a
non-`isolation_forest` config stays trained with a mismatched scaler.) -/
theorem train_state_update {Model Scaler : Type}
    (fitScaler : List (List ℚ) → Scaler)
    (transform : Scaler → List ℚ → List ℚ)
    (fitModel : List (List ℚ) → Model)
    (d : ML.Detector Model Scaler) (features : List (List PyFloat)) :
    ((ML.train fitScaler transform fitModel d features).1 = false →
      (ML.train fitScaler transform fitModel d features).2.model = d.model ∧
      (ML.train fitScaler transform fitModel d features).2.is_trained_flag
        = d.is_trained_flag ∧
      (ML.train fitScaler transform fitModel d features).2.model_type
        = d.model_type) ∧
    ((ML.train fitScaler transform fitModel d features).1 = false →
      d.model_type = "isolation_forest" →
      (ML.train fitScaler transform fitModel d features).2 = d) ∧
    ((ML.train fitScaler transform fitModel d features).1 = true →
      (ML.train fitScaler transform fitModel d features).2 =
        { model_type := d.model_type,
          model := some (fitModel
            ((features.map (fun row => row.map nanToNum)).map
              (transform (fitScaler
                (features.map (fun row => row.map nanToNum)))))),
          scaler := some (fitScaler
            (features.map (fun row => row.map nanToNum))),
          is_trained_flag := true }) := by
  unfold ML.train
  by_cases h1 : features.length < 10
  · simp [h1]
  · by_cases h2 : ML.rectangular features
    · by_cases h3 : d.model_type = "isolation_forest"
      · simp [h1, h2, h3]
      · simp [h1, h2, h3]
    · simp [h1, h2]

theorem train_state_update_witness :
    ((ML.train ML.fitScalerTag ML.transformId ML.fitModelTag ML.dSvm
        ML.tenRows).2.model = ML.dSvm.model ∧
     (ML.train ML.fitScalerTag ML.transformId ML.fitModelTag ML.dSvm
        ML.tenRows).2.is_trained_flag = ML.dSvm.is_trained_flag) ∧
    (ML.train ML.fitScalerTag ML.transformId ML.fitModelTag ML.dForest
        [[PyFloat.nan]]).2 = ML.dForest ∧
    ML.isTrained (ML.train ML.fitScalerTag ML.transformId ML.fitModelTag
        ML.dForest ML.tenRows).2 = true := by
  have hs := train_state_update ML.fitScalerTag ML.transformId ML.fitModelTag
    ML.dSvm ML.tenRows
  have h0 := train_state_update ML.fitScalerTag ML.transformId ML.fitModelTag
    ML.dForest [[PyFloat.nan]]
  have hf := train_state_update ML.fitScalerTag ML.transformId ML.fitModelTag
    ML.dForest ML.tenRows
  refine ⟨⟨(hs.1 (by decide)).1, (hs.1 (by decide)).2.1⟩,
    h0.2.1 (by decide) rfl, ?_⟩
  rw [hf.2.2 (by decide)]
  rfl

end Sentinair

namespace Sentinair

open Alerts

/-! Claims about the alert manager -/

theorem buildAlert_severity (data : AlertData) (now : ℤ) :
    (buildAlert data now).severity = data.severity.getD "medium" := rfl

/-- C10: a candidate alert whose severity is below the configured
threshold is rejected by `create_alert` with the manager state — in
particular every event type's rate-limiting window — completely
unchanged: the severity check runs before the rate-limit window is
touched. -/
theorem create_alert_below_threshold_no_effect (m : AlertManager)
    (data : AlertData) (now : ℤ)
    (h : severityLevels (data.severity.getD "medium") 1 <
      severityLevels m.severity_threshold 2) :
    createAlert m data now = (-1, m) := by
  have hs : shouldCreateAlert m (buildAlert data now) = false := by
    unfold shouldCreateAlert
    rw [buildAlert_severity]
    exact decide_eq_false (by omega)
  unfold createAlert
  simp [hs]

theorem create_alert_below_threshold_no_effect_witness :
    severityLevels "low" 1 < severityLevels mFresh.severity_threshold 2 ∧
    createAlert mFresh { severity := some "low" } 0 = (-1, mFresh) :=
  ⟨by decide,
   create_alert_below_threshold_no_effect mFresh { severity := some "low" } 0
     (by decide)⟩

/-- C2, counterexample: alert ids are microsecond clock readings
(`int(time.time() * 1000000)`, line 57), so two successful `create_alert`
calls that fall in the same microsecond get the same id: the id sequence
of successful creates is neither unique nor strictly increasing. -/
theorem create_alert_ids_can_clash :
    successIds mFresh [(dataHigh, 1000000), (dataHigh, 1000000)]
      = [1000000, 1000000] ∧
    ¬ (successIds mFresh [(dataHigh, 1000000), (dataHigh, 1000000)]).Nodup ∧
    ¬ List.Pairwise (· < ·)
        (successIds mFresh [(dataHigh, 1000000), (dataHigh, 1000000)]) := by
  decide

theorem buildAlert_id (data : AlertData) (now : ℤ) :
    (buildAlert data now).id = now := rfl

theorem createAlert_fst_cases (m : AlertManager) (data : AlertData)
    (now : ℤ) :
    (createAlert m data now).1 = -1 ∨ (createAlert m data now).1 = now := by
  unfold createAlert
  by_cases h1 : shouldCreateAlert m (buildAlert data now) = true
  · by_cases h2 : (checkRateLimit
        (m.alert_timestamps (buildAlert data now).event_type)
        m.max_alerts_per_hour now).1 = true
    · right
      simp [h1, h2, buildAlert_id]
    · left
      simp [h1, h2]
  · left
    simp [h1]

theorem successIds_sublist (calls : List (AlertData × ℤ)) :
    ∀ m : AlertManager, (successIds m calls).Sublist (calls.map Prod.snd) := by
  induction calls with
  | nil => intro m; simp [successIds]
  | cons c rest ih =>
    intro m
    rw [List.map_cons]
    by_cases h : (createAlert m c.1 c.2).1 ≠ -1
    · have hid : (createAlert m c.1 c.2).1 = c.2 :=
        (createAlert_fst_cases m c.1 c.2).resolve_left h
      have heq : successIds m (c :: rest)
          = (createAlert m c.1 c.2).1 :: successIds (createAlert m c.1 c.2).2 rest := by
        simp [successIds, h]
      rw [heq, hid]
      exact List.Sublist.cons₂ _ (ih _)
    · have heq : successIds m (c :: rest)
          = successIds (createAlert m c.1 c.2).2 rest := by
        simp [successIds, h]
      rw [heq]
      exact List.Sublist.cons _ (ih _)

/-- C2, amended: the id assigned by a successful `create_alert` call is
the microsecond clock reading of that call, so whenever the clock readings
of a call sequence are strictly increasing (which the code itself does not
enforce), the ids of the successful creates are strictly increasing and
unique. -/
theorem create_alert_ids_increasing (m : AlertManager)
    (calls : List (AlertData × ℤ))
    (h : List.Pairwise (· < ·) (calls.map Prod.snd)) :
    List.Pairwise (· < ·) (successIds m calls) ∧
    (successIds m calls).Nodup := by
  have hp := List.Pairwise.sublist (successIds_sublist calls m) h
  exact ⟨hp, hp.imp (fun hlt => ne_of_lt hlt)⟩

theorem create_alert_ids_increasing_witness :
    List.Pairwise (· < ·)
      (([(dataHigh, 1), (dataHigh, 2)] : List (AlertData × ℤ)).map Prod.snd) ∧
    List.Pairwise (· < ·) (successIds mFresh [(dataHigh, 1), (dataHigh, 2)]) ∧
    (successIds mFresh [(dataHigh, 1), (dataHigh, 2)]).Nodup :=
  ⟨by decide,
   (create_alert_ids_increasing mFresh [(dataHigh, 1), (dataHigh, 2)]
     (by decide)).1,
   (create_alert_ids_increasing mFresh [(dataHigh, 1), (dataHigh, 2)]
     (by decide)).2⟩

end Sentinair

namespace Sentinair

open Alerts

theorem ackFirst_snd_iff (l : List Alert) (alert_id : ℤ) (b : String)
    (n : ℤ) :
    (ackFirst l alert_id b n).2 = true ↔ alert_id ∈ l.map Alert.id := by
  induction l with
  | nil => simp [ackFirst]
  | cons a rest ih =>
    by_cases h : a.id = alert_id
    · simp [ackFirst, h]
    · simp only [ackFirst, if_neg h, List.map_cons, List.mem_cons, ih]
      constructor
      · intro hm; exact Or.inr hm
      · rintro (heq | hm)
        · exact absurd heq.symm h
        · exact hm

theorem ackFirst_not_found (l : List Alert) (alert_id : ℤ) (b : String)
    (n : ℤ) (h : alert_id ∉ l.map Alert.id) :
    ackFirst l alert_id b n = (l, false) := by
  induction l with
  | nil => rfl
  | cons a rest ih =>
    simp only [List.map_cons, List.mem_cons, not_or] at h
    have ha : ¬ (a.id = alert_id) := fun heq => h.1 heq.symm
    simp [ackFirst, ha, ih h.2]

theorem ackFirst_mem_of_found (l : List Alert) (alert_id : ℤ) (b : String)
    (n : ℤ) (h : (ackFirst l alert_id b n).2 = true) :
    ∃ a ∈ (ackFirst l alert_id b n).1,
      a.id = alert_id ∧ a.acknowledged = true := by
  induction l with
  | nil => simp [ackFirst] at h
  | cons a rest ih =>
    by_cases ha : a.id = alert_id
    · refine ⟨({ a with
          acknowledged := true
          acknowledged_at := some (.str n)
          acknowledged_by := some b } : Alert), ?_, ha, rfl⟩
      simp [ackFirst, ha]
    · simp only [ackFirst, if_neg ha] at h ⊢
      obtain ⟨x, hx, hxx⟩ := ih h
      exact ⟨x, List.mem_cons_of_mem _ hx, hxx⟩

theorem fpFirst_snd_iff (l : List Alert) (alert_id : ℤ) (b : String)
    (n : ℤ) :
    (fpFirst l alert_id b n).2 = true ↔ alert_id ∈ l.map Alert.id := by
  induction l with
  | nil => simp [fpFirst]
  | cons a rest ih =>
    by_cases h : a.id = alert_id
    · simp [fpFirst, h]
    · simp only [fpFirst, if_neg h, List.map_cons, List.mem_cons, ih]
      constructor
      · intro hm; exact Or.inr hm
      · rintro (heq | hm)
        · exact absurd heq.symm h
        · exact hm

theorem fpFirst_not_found (l : List Alert) (alert_id : ℤ) (b : String)
    (n : ℤ) (h : alert_id ∉ l.map Alert.id) :
    fpFirst l alert_id b n = (l, false) := by
  induction l with
  | nil => rfl
  | cons a rest ih =>
    simp only [List.map_cons, List.mem_cons, not_or] at h
    have ha : ¬ (a.id = alert_id) := fun heq => h.1 heq.symm
    simp [fpFirst, ha, ih h.2]

theorem fpFirst_mem_of_found (l : List Alert) (alert_id : ℤ) (b : String)
    (n : ℤ) (h : (fpFirst l alert_id b n).2 = true) :
    ∃ a ∈ (fpFirst l alert_id b n).1,
      a.id = alert_id ∧ a.false_positive = true ∧ a.acknowledged = true := by
  induction l with
  | nil => simp [fpFirst] at h
  | cons a rest ih =>
    by_cases ha : a.id = alert_id
    · refine ⟨({ a with
          false_positive := true
          acknowledged := true
          acknowledged_at := some (.str n)
          acknowledged_by := some b } : Alert), ?_, ha, rfl, rfl⟩
      simp [fpFirst, ha]
    · simp only [fpFirst, if_neg ha] at h ⊢
      obtain ⟨x, hx, hxx⟩ := ih h
      exact ⟨x, List.mem_cons_of_mem _ hx, hxx⟩

/-- C7, counterexample: `acknowledge_alert` and `mark_false_positive`
only loop over `self.active_alerts` and never fall back to the bounded
history: for a manager whose history holds an alert with id 5 that is not
in the active list, both calls return `False`, although the claim says
they succeed for any id present in the history. -/
theorem acknowledge_misses_history_alert :
    5 ∈ mHistOnly.alert_history.map Alert.id ∧
    mHistOnly.active_alerts = [] ∧
    (acknowledgeAlert mHistOnly 5 "user" 0).1 = false ∧
    (markFalsePositive mHistOnly 5 "user" 0).1 = false := by
  decide

/-- C7, amended: `acknowledge(id)` and `mark_false_positive(id)`
succeed exactly for ids of alerts in the active list — the bounded history
is never consulted; on success the matched alert is marked acknowledged
(and, for `mark_false_positive`, marked false-positive with the
false-positive counter incremented); for an id matching no active alert
they return failure and mutate nothing, even when the id is present in the
history. -/
theorem acknowledge_and_fp_active_only (m : AlertManager) (alert_id : ℤ)
    (by_ : String) (now : ℤ) :
    ((acknowledgeAlert m alert_id by_ now).1 = true ↔
      alert_id ∈ m.active_alerts.map Alert.id) ∧
    ((markFalsePositive m alert_id by_ now).1 = true ↔
      alert_id ∈ m.active_alerts.map Alert.id) ∧
    (alert_id ∉ m.active_alerts.map Alert.id →
      acknowledgeAlert m alert_id by_ now = (false, m) ∧
      markFalsePositive m alert_id by_ now = (false, m)) ∧
    ((acknowledgeAlert m alert_id by_ now).1 = true →
      ∃ a ∈ (acknowledgeAlert m alert_id by_ now).2.active_alerts,
        a.id = alert_id ∧ a.acknowledged = true) ∧
    ((markFalsePositive m alert_id by_ now).1 = true →
      (markFalsePositive m alert_id by_ now).2.false_positives
          = m.false_positives + 1 ∧
      ∃ a ∈ (markFalsePositive m alert_id by_ now).2.active_alerts,
        a.id = alert_id ∧ a.false_positive = true ∧ a.acknowledged = true) := by
  refine ⟨?_, ?_, ?_, ?_, ?_⟩
  · exact ackFirst_snd_iff m.active_alerts alert_id by_ now
  · constructor
    · intro h
      unfold markFalsePositive at h
      by_cases hf : (fpFirst m.active_alerts alert_id by_ now).2 = true
      · exact (fpFirst_snd_iff _ _ _ _).mp hf
      · simp [hf] at h
    · intro h
      have hf := (fpFirst_snd_iff m.active_alerts alert_id by_ now).mpr h
      unfold markFalsePositive
      simp [hf]
  · intro h
    constructor
    · unfold acknowledgeAlert
      rw [ackFirst_not_found _ _ _ _ h]
    · unfold markFalsePositive
      rw [fpFirst_not_found _ _ _ _ h]
      rfl
  · intro h
    exact ackFirst_mem_of_found _ _ _ _ h
  · intro h
    unfold markFalsePositive at h ⊢
    by_cases hf : (fpFirst m.active_alerts alert_id by_ now).2 = true
    · constructor
      · simp [hf]
      · simp only [hf, if_pos]
        exact fpFirst_mem_of_found _ _ _ _ hf
    · simp [hf] at h

theorem acknowledge_and_fp_active_only_witness :
    (5 : ℤ) ∉ mHistOnly.active_alerts.map Alert.id ∧
    acknowledgeAlert mHistOnly 5 "user" 0 = (false, mHistOnly) ∧
    markFalsePositive mHistOnly 5 "user" 0 = (false, mHistOnly) := by
  have h := acknowledge_and_fp_active_only mHistOnly 5 "user" 0
  have hn : (5 : ℤ) ∉ mHistOnly.active_alerts.map Alert.id := by decide
  exact ⟨hn, (h.2.2.1 hn).1, (h.2.2.1 hn).2⟩

end Sentinair

namespace Sentinair

open Alerts

/-- C8: `get_recent_alerts` compares the stored timestamp (an ISO
string for every alert that went through `create_alert`) against a
`datetime` cutoff; in Python 3 this raises `TypeError`, the handler
catches it and returns `[]`.  So whenever the history is non-empty and
holds string timestamps, `get_recent_alerts` returns the empty list
instead of the alerts of the window — contradicting the claim (and the
function's own docstring). -/
theorem get_recent_alerts_always_empty (m : AlertManager) (hours : ℕ)
    (now : ℤ) (hne : m.alert_history ≠ [])
    (hstr : ∀ a ∈ m.alert_history, ∃ t, a.timestamp = PyTime.str t) :
    getRecentAlerts m hours now = [] := by
  obtain ⟨a, rest, hh⟩ : ∃ a rest, m.alert_history = a :: rest := by
    cases hcase : m.alert_history with
    | nil => exact absurd hcase hne
    | cons a rest => exact ⟨a, rest, rfl⟩
  obtain ⟨t, ht⟩ := hstr a (by rw [hh]; exact List.mem_cons_self a rest)
  unfold getRecentAlerts
  rw [hh]
  unfold filterRecent
  rw [ht]
  rfl

theorem get_recent_alerts_always_empty_witness :
    (createAlert mFresh dataHigh 1000000).2.alert_history ≠ [] ∧
    getRecentAlerts (createAlert mFresh dataHigh 1000000).2 24 1000000
      = [] := by
  have hhist : (createAlert mFresh dataHigh 1000000).2.alert_history
      = [buildAlert dataHigh 1000000] := by decide
  refine ⟨by rw [hhist]; simp, ?_⟩
  refine get_recent_alerts_always_empty _ 24 1000000
    (by rw [hhist]; simp) ?_
  intro a ha
  rw [hhist] at ha
  rw [List.mem_singleton.mp ha]
  exact ⟨1000000, rfl⟩

/-- C9: for every acknowledged alert in the active list, the value
`alert.get('acknowledged_at', alert['timestamp'])` is an ISO string (the
code stores only strings in those fields), and `cleanup_old_alerts`
compares it against a `datetime` cutoff: `TypeError`, caught, `0`
returned, state untouched.  So `cleanup_old_alerts` never removes
anything — contradicting the claim and its own docstring: an
acknowledged alert far older than the cutoff stays in the active list. -/
theorem cleanup_old_alerts_removes_nothing (m : AlertManager) (days : ℕ)
    (now : ℤ)
    (hstr : ∀ a ∈ m.active_alerts, a.acknowledged = true →
      ∃ t, a.acknowledged_at.getD a.timestamp = PyTime.str t) :
    cleanupOldAlerts m days now = (0, m) := by
  have hfil : ∀ (l : List Alert),
      (∀ a ∈ l, a.acknowledged = true →
        ∃ t, a.acknowledged_at.getD a.timestamp = PyTime.str t) →
      cleanupFilter l (now - days * dayUs) = .error "TypeError" ∨
      cleanupFilter l (now - days * dayUs) = .ok l := by
    intro l
    induction l with
    | nil => intro _; exact Or.inr rfl
    | cons a rest ih =>
      intro hl
      by_cases hack : a.acknowledged = true
      · obtain ⟨t, ht⟩ := hl a (List.mem_cons_self a rest) hack
        left
        unfold cleanupFilter cleanupKeep
        rw [hack, ht]
        rfl
      · have hrest := ih (fun x hx => hl x (List.mem_cons_of_mem a hx))
        have hkeep : cleanupKeep a (now - days * dayUs) = .ok true := by
          unfold cleanupKeep
          simp [hack]
        cases hrest with
        | inl he =>
          left
          unfold cleanupFilter
          rw [hkeep, he]
          rfl
        | inr hok =>
          right
          unfold cleanupFilter
          rw [hkeep, hok]
          rfl
  unfold cleanupOldAlerts
  dsimp only
  cases hfil m.active_alerts hstr with
  | inl he => rw [he]
  | inr hok =>
    rw [hok]
    simp

theorem cleanup_old_alerts_removes_nothing_witness :
    ((acknowledgeAlert (createAlert mFresh dataHigh 1000000).2 1000000
        "user" 1000000).2.active_alerts.map Alert.acknowledged = [true]) ∧
    cleanupOldAlerts
      (acknowledgeAlert (createAlert mFresh dataHigh 1000000).2 1000000
        "user" 1000000).2 7 (1000000 + 30 * dayUs) =
      (0, (acknowledgeAlert (createAlert mFresh dataHigh 1000000).2 1000000
        "user" 1000000).2) := by
  refine ⟨by decide, ?_⟩
  refine cleanup_old_alerts_removes_nothing _ 7 (1000000 + 30 * dayUs) ?_
  intro a ha _
  have hmem := List.mem_map_of_mem
    (fun x : Alert => x.acknowledged_at.getD x.timestamp) ha
  have hts : (acknowledgeAlert (createAlert mFresh dataHigh 1000000).2
      1000000 "user" 1000000).2.active_alerts.map
      (fun x : Alert => x.acknowledged_at.getD x.timestamp)
      = [PyTime.str 1000000] := by decide
  rw [hts] at hmem
  exact ⟨1000000, List.mem_singleton.mp hmem⟩

end Sentinair

namespace Sentinair

open Alerts

/-! The rolling-hour rate limit (C6) -/

theorem hourUs_nonneg : (0 : ℤ) ≤ hourUs := by norm_num [hourUs]

theorem dropWhile_lt_sorted (x : ℤ) :
    ∀ (l : List ℤ), l.Pairwise (· ≤ ·) →
      l.dropWhile (fun a => decide (a < x)) = filterGe x l := by
  intro l
  induction l with
  | nil => intro _; rfl
  | cons a rest ih =>
    intro hl
    obtain ⟨ha, hrest⟩ := List.pairwise_cons.mp hl
    by_cases h : a < x
    · have h' : ¬ x ≤ a := not_le.mpr h
      rw [List.dropWhile_cons, if_pos (by simpa using h), ih hrest]
      unfold filterGe
      rw [List.filter_cons, if_neg (by simpa using h')]
    · have h' : x ≤ a := not_lt.mp h
      rw [List.dropWhile_cons, if_neg (by simpa using h)]
      unfold filterGe
      rw [List.filter_cons, if_pos (by simpa using h')]
      have hself : List.filter (fun b => decide (x ≤ b)) rest = rest :=
        List.filter_eq_self.mpr
          (fun b hb => by simpa using le_trans h' (ha b hb))
      rw [hself]

theorem filterGe_filterGe (x c : ℤ) (A : List ℤ) (h : c ≤ x) :
    filterGe x (filterGe c A) = filterGe x A := by
  unfold filterGe
  rw [List.filter_filter]
  apply List.filter_congr
  intro a _
  by_cases hx : x ≤ a
  · have hc : c ≤ a := le_trans h hx
    simp [hx, hc]
  · simp [hx]

theorem checkRateLimit_sorted (dq : List ℤ) (N : ℕ) (t : ℤ)
    (h : dq.Pairwise (· ≤ ·)) :
    checkRateLimit dq N t =
      if (filterGe (t - hourUs) dq).length ≥ N then
        (false, filterGe (t - hourUs) dq)
      else (true, filterGe (t - hourUs) dq ++ [t]) := by
  unfold checkRateLimit
  dsimp only
  rw [dropWhile_lt_sorted (t - hourUs) dq h]

theorem lastCut_cons (c t : ℤ) (ts : List ℤ) :
    lastCut c (t :: ts) = lastCut (t - hourUs) ts := rfl

theorem lastCut_le (t' : ℤ) :
    ∀ (ts : List ℤ) (c : ℤ), (∀ x ∈ ts, x ≤ t') → c ≤ t' - hourUs →
      lastCut c ts ≤ t' - hourUs := by
  intro ts
  induction ts with
  | nil => intro c _ hc; exact hc
  | cons t ts ih =>
    intro c h hc
    rw [lastCut_cons]
    refine ih (t - hourUs) (fun x hx => h x (List.mem_cons_of_mem _ hx)) ?_
    have := h t (List.mem_cons_self t ts)
    omega

end Sentinair

namespace Sentinair

open Alerts

theorem rl_run_spec (N : ℕ) (times : List ℤ) :
    ∀ (A : List ℤ) (c : ℤ),
      times.Pairwise (· ≤ ·) →
      A.Pairwise (· ≤ ·) →
      (∀ a ∈ A, ∀ t ∈ times, a ≤ t) →
      (∀ t ∈ times, c + hourUs ≤ t) →
      (rlAccepted N (filterGe c A) times).Sublist times ∧
      rlState N (filterGe c A) times =
        filterGe (lastCut c times) (A ++ rlAccepted N (filterGe c A) times) ∧
      (∀ pre a suf, rlAccepted N (filterGe c A) times = pre ++ a :: suf →
        (filterGe (a - hourUs) (A ++ pre)).length < N) := by
  induction times with
  | nil =>
    intro A c _ _ _ _
    refine ⟨List.Sublist.refl _, ?_, ?_⟩
    · show filterGe c A = filterGe (lastCut c []) (A ++ [])
      rw [List.append_nil]
      rfl
    · intro pre a suf heq
      exact absurd heq (by simp [rlAccepted])
  | cons t ts ih =>
    intro A c hst hsA hbound hcut
    obtain ⟨hts_le, hts⟩ := List.pairwise_cons.mp hst
    have hct : c + hourUs ≤ t := hcut t (List.mem_cons_self t ts)
    have hsorted_dq : (filterGe c A).Pairwise (· ≤ ·) := hsA.filter _
    have hcr0 : checkRateLimit (filterGe c A) N t =
        if (filterGe (t - hourUs) A).length ≥ N then
          (false, filterGe (t - hourUs) A)
        else (true, filterGe (t - hourUs) A ++ [t]) := by
      rw [checkRateLimit_sorted _ _ _ hsorted_dq,
        filterGe_filterGe _ _ _ (by omega)]
    have hcut' : ∀ t' ∈ ts, (t - hourUs) + hourUs ≤ t' := by
      intro t' ht'
      have := hts_le t' ht'
      omega
    have hbound' : ∀ a ∈ A, ∀ t' ∈ ts, a ≤ t' :=
      fun a ha t' ht' => hbound a ha t' (List.mem_cons_of_mem _ ht')
    by_cases hlim : (filterGe (t - hourUs) A).length ≥ N
    · -- the call at time t is rejected; the eviction persists
      have hcr : checkRateLimit (filterGe c A) N t =
          (false, filterGe (t - hourUs) A) := by rw [hcr0, if_pos hlim]
      have hACC : rlAccepted N (filterGe c A) (t :: ts) =
          rlAccepted N (filterGe (t - hourUs) A) ts := by
        simp [rlAccepted, hcr]
      have hST : rlState N (filterGe c A) (t :: ts) =
          rlState N (filterGe (t - hourUs) A) ts := by
        simp [rlState, hcr]
      obtain ⟨ih1, ih2, ih3⟩ := ih A (t - hourUs) hts hsA hbound' hcut'
      refine ⟨?_, ?_, ?_⟩
      · rw [hACC]
        exact ih1.cons _
      · rw [hST, hACC, ih2, lastCut_cons]
      · intro pre a suf heq
        rw [hACC] at heq
        exact ih3 pre a suf heq
    · -- the call at time t is accepted and appended to the deque
      have hcr : checkRateLimit (filterGe c A) N t =
          (true, filterGe (t - hourUs) A ++ [t]) := by rw [hcr0, if_neg hlim]
      have hnew : filterGe (t - hourUs) A ++ [t] =
          filterGe (t - hourUs) (A ++ [t]) := by
        unfold filterGe
        rw [List.filter_append]
        congr 1
        rw [List.filter_cons]
        rw [if_pos (by simpa using by have := hourUs_nonneg; omega)]
        rfl
      have hA' : (A ++ [t]).Pairwise (· ≤ ·) := by
        rw [List.pairwise_append]
        refine ⟨hsA, List.pairwise_singleton _ _, ?_⟩
        intro a ha b hb
        rw [List.mem_singleton.mp hb]
        exact hbound a ha t (List.mem_cons_self t ts)
      have hbound'' : ∀ a ∈ A ++ [t], ∀ t' ∈ ts, a ≤ t' := by
        intro a ha t' ht'
        rcases List.mem_append.mp ha with h | h
        · exact hbound a h t' (List.mem_cons_of_mem _ ht')
        · rw [List.mem_singleton.mp h]
          exact hts_le t' ht'
      obtain ⟨ih1, ih2, ih3⟩ := ih (A ++ [t]) (t - hourUs) hts hA' hbound'' hcut'
      have hACC : rlAccepted N (filterGe c A) (t :: ts) =
          t :: rlAccepted N (filterGe (t - hourUs) (A ++ [t])) ts := by
        simp [rlAccepted, hcr, hnew]
      have hST : rlState N (filterGe c A) (t :: ts) =
          rlState N (filterGe (t - hourUs) (A ++ [t])) ts := by
        simp [rlState, hcr, hnew]
      refine ⟨?_, ?_, ?_⟩
      · rw [hACC]
        exact ih1.cons₂ t
      · rw [hST, hACC, ih2, lastCut_cons, List.append_assoc, List.singleton_append]
      · intro pre a suf heq
        rw [hACC] at heq
        cases pre with
        | nil =>
          rw [List.nil_append] at heq
          injection heq with h1 h2
          rw [List.append_nil, ← h1]
          exact not_le.mp hlim
        | cons p pre' =>
          rw [List.cons_append] at heq
          injection heq with h1 h2
          have hres := ih3 pre' a suf h2
          rw [← h1]
          rw [← List.singleton_append, ← List.append_assoc]
          exact hres

end Sentinair

namespace Sentinair

open Alerts

theorem rl_run_nil (N : ℕ) (times : List ℤ)
    (h : times.Pairwise (· ≤ ·)) :
    (rlAccepted N [] times).Sublist times ∧
    rlState N [] times =
      filterGe (lastCut 0 times) (rlAccepted N [] times) ∧
    (∀ pre a suf, rlAccepted N [] times = pre ++ a :: suf →
      (filterGe (a - hourUs) pre).length < N) := by
  cases times with
  | nil =>
    refine ⟨List.Sublist.refl _, rfl, ?_⟩
    intro pre a suf heq
    exact absurd heq (by simp [rlAccepted])
  | cons t ts =>
    obtain ⟨hts_le, -⟩ := List.pairwise_cons.mp h
    have hcut : ∀ x ∈ t :: ts, (t - hourUs) + hourUs ≤ x := by
      intro x hx
      rcases List.mem_cons.mp hx with rfl | hx'
      · omega
      · have := hts_le x hx'
        omega
    have hspec := rl_run_spec N (t :: ts) [] (t - hourUs) h List.Pairwise.nil
      (by simp) hcut
    have hemp : filterGe (t - hourUs) ([] : List ℤ) = [] := rfl
    rw [hemp] at hspec
    obtain ⟨h1, h2, h3⟩ := hspec
    refine ⟨h1, ?_, ?_⟩
    · rw [h2, List.nil_append]
      rfl
    · intro pre a suf heq
      have := h3 pre a suf heq
      rwa [List.nil_append] at this

theorem rlAccepted_append (N : ℕ) (t' : ℤ) :
    ∀ (ts : List ℤ) (dq : List ℤ),
      rlAccepted N dq (ts ++ [t']) =
        rlAccepted N dq ts ++
          (if (checkRateLimit (rlState N dq ts) N t').1 then [t'] else []) := by
  intro ts
  induction ts with
  | nil =>
    intro dq
    by_cases hc : (checkRateLimit dq N t').1
    · simp [rlAccepted, rlState, hc]
    · simp [rlAccepted, rlState, hc]
  | cons t ts ih =>
    intro dq
    rw [List.cons_append]
    by_cases hc : (checkRateLimit dq N t).1
    · have e1 : rlAccepted N dq (t :: (ts ++ [t'])) =
          t :: rlAccepted N (checkRateLimit dq N t).2 (ts ++ [t']) := by
        simp [rlAccepted, hc]
      have e2 : rlAccepted N dq (t :: ts) =
          t :: rlAccepted N (checkRateLimit dq N t).2 ts := by
        simp [rlAccepted, hc]
      have e3 : rlState N dq (t :: ts) =
          rlState N (checkRateLimit dq N t).2 ts := by
        simp [rlState]
      rw [e1, e2, e3, ih, List.cons_append]
    · have e1 : rlAccepted N dq (t :: (ts ++ [t'])) =
          rlAccepted N (checkRateLimit dq N t).2 (ts ++ [t']) := by
        simp [rlAccepted, hc]
      have e2 : rlAccepted N dq (t :: ts) =
          rlAccepted N (checkRateLimit dq N t).2 ts := by
        simp [rlAccepted, hc]
      have e3 : rlState N dq (t :: ts) =
          rlState N (checkRateLimit dq N t).2 ts := by
        simp [rlState]
      rw [e1, e2, e3, ih]

theorem checkRateLimit_fst (N : ℕ) (times : List ℤ) (t' : ℤ)
    (hsorted : times.Pairwise (· ≤ ·)) (hle : ∀ x ∈ times, x ≤ t') :
    (checkRateLimit (rlState N [] times) N t').1 =
      decide ((filterGe (t' - hourUs) (rlAccepted N [] times)).length < N) := by
  obtain ⟨hsub, hstate, -⟩ := rl_run_nil N times hsorted
  have hAsort : (rlAccepted N [] times).Pairwise (· ≤ ·) :=
    List.Pairwise.sublist hsub hsorted
  have hSsort : (rlState N [] times).Pairwise (· ≤ ·) := by
    rw [hstate]
    exact hAsort.filter _
  rw [checkRateLimit_sorted _ _ _ hSsort, hstate]
  have habs : filterGe (t' - hourUs)
      (filterGe (lastCut 0 times) (rlAccepted N [] times)) =
      filterGe (t' - hourUs) (rlAccepted N [] times) := by
    cases times with
    | nil => rfl
    | cons t ts =>
      have hlc : lastCut 0 (t :: ts) ≤ t' - hourUs := by
        rw [show lastCut 0 (t :: ts) = lastCut (t - hourUs) ts from rfl]
        refine lastCut_le t' ts (t - hourUs)
          (fun x hx => hle x (List.mem_cons_of_mem _ hx)) ?_
        have := hle t (List.mem_cons_self t ts)
        omega
      exact filterGe_filterGe _ _ _ hlc
  rw [habs]
  by_cases hl : (filterGe (t' - hourUs) (rlAccepted N [] times)).length ≥ N
  · rw [if_pos hl]
    exact (decide_eq_false (by omega)).symm
  · rw [if_neg hl]
    exact (decide_eq_true (by omega)).symm

theorem filter_eq_concat_decomp {α : Type} (p : α → Bool) :
    ∀ (A S₁ : List α) (a : α), A.filter p = S₁ ++ [a] →
      ∃ pre suf, A = pre ++ a :: suf ∧ pre.filter p = S₁ := by
  intro A
  induction A with
  | nil =>
    intro S₁ a h
    exact absurd h (by simp)
  | cons x A' ih =>
    intro S₁ a h
    by_cases hx : p x
    · rw [List.filter_cons_of_pos hx] at h
      cases S₁ with
      | nil =>
        rw [List.nil_append] at h
        injection h with h1 h2
        refine ⟨[], A', ?_, rfl⟩
        rw [List.nil_append, h1]
      | cons s S₁' =>
        rw [List.cons_append] at h
        injection h with h1 h2
        obtain ⟨pre, suf, hA, hpre⟩ := ih S₁' a h2
        refine ⟨x :: pre, suf, ?_, ?_⟩
        · rw [List.cons_append, hA]
        · rw [List.filter_cons_of_pos hx, hpre, h1]
    · rw [List.filter_cons_of_neg hx] at h
      obtain ⟨pre, suf, hA, hpre⟩ := ih S₁ a h
      refine ⟨x :: pre, suf, ?_, ?_⟩
      · rw [List.cons_append, hA]
      · rw [List.filter_cons_of_neg hx, hpre]

theorem window_le_of_P (N : ℕ) (A : List ℤ)
    (hP : ∀ pre a suf, A = pre ++ a :: suf →
      (filterGe (a - hourUs) pre).length < N) :
    ∀ w, windowCount w A ≤ N := by
  intro w
  unfold windowCount
  rcases List.eq_nil_or_concat
      (A.filter (fun a => decide (w ≤ a) && decide (a ≤ w + hourUs))) with
    hnil | ⟨S₁, a, hS⟩
  · rw [hnil]
    exact Nat.zero_le N
  · rw [List.concat_eq_append] at hS
    obtain ⟨pre, suf, hA, hpre⟩ := filter_eq_concat_decomp _ A S₁ a hS
    have haP : (decide (w ≤ a) && decide (a ≤ w + hourUs)) = true := by
      have hmem : a ∈ A.filter
          (fun a => decide (w ≤ a) && decide (a ≤ w + hourUs)) := by
        rw [hS]
        exact List.mem_append_right _ (List.mem_singleton.mpr rfl)
      exact (List.mem_filter.mp hmem).2
    have haw : a ≤ w + hourUs := by
      simp only [Bool.and_eq_true, decide_eq_true_eq] at haP
      exact haP.2
    have hsub : pre.filter (fun a => decide (w ≤ a) && decide (a ≤ w + hourUs)) =
        List.filter (fun x => decide (w ≤ x) && decide (x ≤ w + hourUs))
          (filterGe (a - hourUs) pre) := by
      unfold filterGe
      rw [List.filter_filter]
      apply List.filter_congr
      intro x _
      by_cases hwx : w ≤ x
      · have hax : a - hourUs ≤ x := by omega
        simp [hwx, hax]
      · simp [hwx]
    have hlen1 : S₁.length ≤ (filterGe (a - hourUs) pre).length := by
      rw [← hpre, hsub]
      exact (List.filter_sublist _).length_le
    have hPa := hP pre a suf hA
    rw [hS, List.length_append, List.length_singleton]
    omega

end Sentinair

namespace Sentinair

open Alerts

theorem shouldCreate_build_iff (m : AlertManager) (data : AlertData)
    (now : ℤ) :
    shouldCreateAlert m (buildAlert data now) = true ↔
      severityLevels (data.severity.getD "medium") 1 ≥
        severityLevels m.severity_threshold 2 := by
  unfold shouldCreateAlert
  rw [buildAlert_severity]
  exact decide_eq_true_iff

theorem createAlert_rate_step (m : AlertManager) (data : AlertData) (t : ℤ)
    (hsev : severityLevels (data.severity.getD "medium") 1 ≥
      severityLevels m.severity_threshold 2)
    (ht : 0 ≤ t) :
    ((createAlert m data t).1 ≠ -1 ↔
      (checkRateLimit (m.alert_timestamps (data.event_type.getD "unknown"))
        m.max_alerts_per_hour t).1 = true) ∧
    (createAlert m data t).2.alert_timestamps (data.event_type.getD "unknown")
        = (checkRateLimit
            (m.alert_timestamps (data.event_type.getD "unknown"))
            m.max_alerts_per_hour t).2 ∧
    (createAlert m data t).2.severity_threshold = m.severity_threshold ∧
    (createAlert m data t).2.max_alerts_per_hour = m.max_alerts_per_hour := by
  have hsc : shouldCreateAlert m (buildAlert data t) = true :=
    (shouldCreate_build_iff m data t).mpr hsev
  have hety : (buildAlert data t).event_type = data.event_type.getD "unknown" :=
    rfl
  unfold createAlert
  dsimp only
  rw [hsc, if_neg (not_not_intro rfl)]
  by_cases hc : (checkRateLimit
      (m.alert_timestamps (buildAlert data t).event_type)
      m.max_alerts_per_hour t).1 = true
  · rw [if_neg (not_not_intro hc)]
    refine ⟨?_, ?_, rfl, rfl⟩
    · rw [hety] at hc
      constructor
      · intro _
        exact hc
      · intro _
        show (buildAlert data t).id ≠ -1
        rw [buildAlert_id]
        omega
    · show (fun ty => if ty = (buildAlert data t).event_type
          then (checkRateLimit
            (m.alert_timestamps (buildAlert data t).event_type)
            m.max_alerts_per_hour t).2
          else m.alert_timestamps ty) (data.event_type.getD "unknown") = _
      rw [hety]
      simp
  · rw [if_pos hc]
    refine ⟨?_, ?_, rfl, rfl⟩
    · rw [hety] at hc
      constructor
      · intro habs
        exact absurd rfl habs
      · intro htrue
        exact absurd htrue hc
    · show (fun ty => if ty = (buildAlert data t).event_type
          then (checkRateLimit
            (m.alert_timestamps (buildAlert data t).event_type)
            m.max_alerts_per_hour t).2
          else m.alert_timestamps ty) (data.event_type.getD "unknown") = _
      rw [hety]
      simp

end Sentinair

namespace Sentinair

open Alerts

theorem acceptedTimes_eq_rl (data : AlertData) :
    ∀ (times : List ℤ) (m : AlertManager),
      severityLevels (data.severity.getD "medium") 1 ≥
        severityLevels m.severity_threshold 2 →
      (∀ t ∈ times, 0 ≤ t) →
      acceptedTimes m data times =
        rlAccepted m.max_alerts_per_hour
          (m.alert_timestamps (data.event_type.getD "unknown")) times := by
  intro times
  induction times with
  | nil => intro m _ _; rfl
  | cons t ts ih =>
    intro m hsev hpos
    obtain ⟨hiff, htsx, hth, hmax⟩ :=
      createAlert_rate_step m data t hsev (hpos t (List.mem_cons_self t ts))
    have hih := ih (createAlert m data t).2 (by rw [hth]; exact hsev)
      (fun x hx => hpos x (List.mem_cons_of_mem _ hx))
    rw [hmax, htsx] at hih
    by_cases hc : (checkRateLimit
        (m.alert_timestamps (data.event_type.getD "unknown"))
        m.max_alerts_per_hour t).1 = true
    · have hsucc : (createAlert m data t).1 ≠ -1 := hiff.mpr hc
      have h1 : acceptedTimes m data (t :: ts) =
          t :: acceptedTimes (createAlert m data t).2 data ts := by
        simp [acceptedTimes, hsucc]
      have h2 : rlAccepted m.max_alerts_per_hour
          (m.alert_timestamps (data.event_type.getD "unknown")) (t :: ts) =
          t :: rlAccepted m.max_alerts_per_hour
            (checkRateLimit
              (m.alert_timestamps (data.event_type.getD "unknown"))
              m.max_alerts_per_hour t).2 ts := by
        simp [rlAccepted, hc]
      rw [h1, h2, hih]
    · have hfail : ¬ (createAlert m data t).1 ≠ -1 := fun h => hc (hiff.mp h)
      have h1 : acceptedTimes m data (t :: ts) =
          acceptedTimes (createAlert m data t).2 data ts := by
        simp [acceptedTimes, not_not.mp hfail]
      have h2 : rlAccepted m.max_alerts_per_hour
          (m.alert_timestamps (data.event_type.getD "unknown")) (t :: ts) =
          rlAccepted m.max_alerts_per_hour
            (checkRateLimit
              (m.alert_timestamps (data.event_type.getD "unknown"))
              m.max_alerts_per_hour t).2 ts := by
        simp [rlAccepted, hc]
      rw [h1, h2, hih]

/-- C6: starting from a fresh rate-limit window for event type `T`
(the type of the candidate payload), with all candidates above the
severity threshold and the clock non-decreasing: (i) at most
`max_alerts_per_hour` alerts for `T` are ever created inside any closed
rolling one-hour window `[w, w + 1h]`; (ii) one further call at time `t'`
succeeds exactly when fewer than `max_alerts_per_hour` of the accepted
creation times still lie within `[t' - 1h, t']` — so the `(N+1)`-th call
inside the hour is rejected, and once an accepted timestamp has aged out
of the window a subsequent call succeeds again. -/
theorem create_alert_rate_limit_window (m : AlertManager)
    (data : AlertData) (times : List ℤ) (t' : ℤ)
    (hsev : severityLevels (data.severity.getD "medium") 1 ≥
      severityLevels m.severity_threshold 2)
    (hfresh : m.alert_timestamps (data.event_type.getD "unknown") = [])
    (hsorted : times.Pairwise (· ≤ ·))
    (hpos : ∀ t ∈ times, 0 ≤ t)
    (ht'pos : 0 ≤ t') (hlast : ∀ t ∈ times, t ≤ t') :
    (∀ w : ℤ, windowCount w (acceptedTimes m data times) ≤
      m.max_alerts_per_hour) ∧
    acceptedTimes m data (times ++ [t']) =
      acceptedTimes m data times ++
        (if (filterGe (t' - hourUs) (acceptedTimes m data times)).length <
            m.max_alerts_per_hour then [t'] else []) := by
  have hbr := acceptedTimes_eq_rl data times m hsev hpos
  rw [hfresh] at hbr
  obtain ⟨hsub, hstate, hP⟩ := rl_run_nil m.max_alerts_per_hour times hsorted
  constructor
  · intro w
    rw [hbr]
    exact window_le_of_P _ _ hP w
  · have hsorted' : (times ++ [t']).Pairwise (· ≤ ·) := by
      rw [List.pairwise_append]
      refine ⟨hsorted, List.pairwise_singleton _ _, ?_⟩
      intro a ha b hb
      rw [List.mem_singleton.mp hb]
      exact hlast a ha
    have hpos' : ∀ t ∈ times ++ [t'], 0 ≤ t := by
      intro x hx
      rcases List.mem_append.mp hx with h | h
      · exact hpos x h
      · rw [List.mem_singleton.mp h]
        exact ht'pos
    have hbr' := acceptedTimes_eq_rl data (times ++ [t']) m hsev hpos'
    rw [hfresh] at hbr'
    rw [hbr', hbr, rlAccepted_append,
      checkRateLimit_fst m.max_alerts_per_hour times t' hsorted hlast]
    by_cases hcond : (filterGe (t' - hourUs)
        (rlAccepted m.max_alerts_per_hour [] times)).length <
        m.max_alerts_per_hour
    · rw [if_pos (decide_eq_true hcond), if_pos hcond]
    · rw [if_neg (by simpa using hcond), if_neg hcond]

theorem create_alert_rate_limit_window_witness :
    windowCount 0 (acceptedTimes mFresh dataHigh [0, 1, 2]) ≤
      mFresh.max_alerts_per_hour ∧
    acceptedTimes mFresh dataHigh ([0, 1, 2] ++ [hourUs + 1]) =
      acceptedTimes mFresh dataHigh [0, 1, 2] ++
        (if (filterGe (hourUs + 1 - hourUs)
            (acceptedTimes mFresh dataHigh [0, 1, 2])).length <
            mFresh.max_alerts_per_hour then [hourUs + 1] else []) := by
  have h := create_alert_rate_limit_window mFresh dataHigh [0, 1, 2]
    (hourUs + 1) (by decide) rfl (by decide) (by decide) (by decide)
    (by decide)
  exact ⟨h.1 0, h.2⟩

end Sentinair
